import Mathlib

/-!
Verification of the Intent Resolution & Action Dispatch Pipeline of the
RaphaelAI assistant backend.  The Python sources under `functions/` are
shallowly embedded: strings are `List Char`, Python floats are modelled by
exact rationals (`ℚ`), fallible code returns sum types.  Each embedded
definition keeps the name of the Python function it is translated from.
-/

namespace Raphael

/-- ASCII whitespace recognised by Python's `\s` regex class and `str.strip`
(space, tab, newline, carriage return, vertical tab, form feed). -/
def isPySpace (c : Char) : Bool :=
  c = ' ' || c = '\t' || c = '\n' || c = '\r' || c = '\x0b' || c = '\x0c'

/-- ASCII lower-casing of one character, as `str.lower` acts on ASCII text. -/
def toLowerC (c : Char) : Char :=
  if 'A' ≤ c ∧ c ≤ 'Z' then Char.ofNat (c.toNat + 32) else c

/-- `str.lower` on an ASCII string. -/
def toLowerL (l : List Char) : List Char := l.map toLowerC

/-- Apostrophe character (used in string literals of the source). -/
def apos : Char := Char.ofNat 39

instance {ε α : Type} [DecidableEq ε] [DecidableEq α] :
    DecidableEq (Except ε α) := fun a b =>
  match a, b with
  | .ok x, .ok y =>
    if h : x = y then .isTrue (by rw [h]) else .isFalse (by simp [h])
  | .error x, .error y =>
    if h : x = y then .isTrue (by rw [h]) else .isFalse (by simp [h])
  | .ok _, .error _ => .isFalse (by simp)
  | .error _, .ok _ => .isFalse (by simp)

/-- Python's substring test `needle in hay`. -/
def pyIn (needle hay : List Char) : Bool :=
  match hay with
  | [] => needle.isEmpty
  | _ :: t => needle.isPrefixOf hay || pyIn needle t

/-- `any(keyword in msg for keyword in kws)`. -/
def containsAny (msg : List Char) (kws : List (List Char)) : Bool :=
  kws.any (fun k => pyIn k msg)

/-- `str.strip()`: drop leading and trailing whitespace. -/
def stripWs (l : List Char) : List Char :=
  ((l.dropWhile isPySpace).reverse.dropWhile isPySpace).reverse

/-- `str.split()` with no argument: split on runs of whitespace,
discarding empty pieces (`acc` carries the reversed current token). -/
def splitWsAux : List Char → List Char → List (List Char)
  | acc, [] => if acc.isEmpty then [] else [acc.reverse]
  | acc, c :: t =>
    if isPySpace c then
      if acc.isEmpty then splitWsAux [] t
      else acc.reverse :: splitWsAux [] t
    else splitWsAux (c :: acc) t

def splitWs (l : List Char) : List (List Char) := splitWsAux [] l

/-- `"sep".join(xs)`. -/
def joinSep (sep : List Char) : List (List Char) → List Char
  | [] => []
  | [x] => x
  | x :: y :: t => x ++ sep ++ joinSep sep (y :: t)

/-! ## Exact rational numbers with kernel-computable operations

Python floats are modelled by exact rationals.  Mathlib's `ℚ` normalizes
through `Nat.gcd`, which the kernel cannot evaluate on closed terms, so
the embedding carries its own always-reduced fraction type whose
normalization runs a fuel-indexed Euclid over `Nat.mod`.  `Frac.toRat`
connects it to `ℚ` for statements that want the mathematical value. -/

/-- A rational number as a reduced fraction: `den` is positive and
coprime to `num` for every value built by the smart constructor
`mkFrac`. -/
structure Frac where
  num : ℤ
  den : ℕ
deriving DecidableEq, Repr

/-- Euclid's algorithm with explicit fuel (`Nat.mod` is
kernel-accelerated, so this evaluates on closed terms). -/
def gcdFuel : ℕ → ℕ → ℕ → ℕ
  | 0, _, b => b
  | _ + 1, 0, b => b
  | f + 1, a + 1, b => gcdFuel f (b % (a + 1)) (a + 1)

def natGcd (a b : ℕ) : ℕ := gcdFuel (a + b + 1) a b

/-- Build the reduced fraction `n / d`; `d = 0` never occurs at call
sites (division guards it) and is mapped to `0`. -/
def mkFrac (n d : ℤ) : Frac :=
  if d = 0 then ⟨0, 1⟩
  else
    let s : ℤ := if d < 0 then -1 else 1
    let n' := s * n
    let d' := (s * d).toNat
    let g := natGcd n'.natAbs d'
    ⟨n' / (g : ℤ), d' / g⟩

def Frac.ofInt (n : ℤ) : Frac := ⟨n, 1⟩

def Frac.add (a b : Frac) : Frac :=
  mkFrac (a.num * (b.den : ℤ) + b.num * (a.den : ℤ)) ((a.den : ℤ) * (b.den : ℤ))

def Frac.sub (a b : Frac) : Frac :=
  mkFrac (a.num * (b.den : ℤ) - b.num * (a.den : ℤ)) ((a.den : ℤ) * (b.den : ℤ))

def Frac.mul (a b : Frac) : Frac :=
  mkFrac (a.num * b.num) ((a.den : ℤ) * (b.den : ℤ))

/-- Exact division; the caller guards `b ≠ 0`. -/
def Frac.div (a b : Frac) : Frac :=
  mkFrac (a.num * (b.den : ℤ)) ((a.den : ℤ) * b.num)

def Frac.neg (a : Frac) : Frac := ⟨-a.num, a.den⟩

def Frac.isZero (a : Frac) : Bool := a.num = 0

def Frac.powNat (a : Frac) (n : ℕ) : Frac :=
  mkFrac (a.num ^ n) ((a.den : ℤ) ^ n)

/-- Floor of the fraction (`den` is positive, so `Int.fdiv` floors). -/
def Frac.floor (a : Frac) : ℤ := a.num.fdiv (a.den : ℤ)

/-- The mathematical value of the fraction. -/
def Frac.toRat (a : Frac) : ℚ := (a.num : ℚ) / (a.den : ℚ)

/-! ## Intent classifier: `parse_gemini_intent` (services/gemini_service.py)

The function classifies the user message through an ordered chain of
keyword tests and returns an action label with a confidence score; the
Gemini response text is only passed through and never branched on, and
the per-branch entity extraction is modelled separately, so the embedding
returns the `(action, confidence)` pair. -/

structure IntentData where
  action : List Char
  confidence : Frac
deriving DecidableEq, Repr

def store_memory_keywords : List (List Char) :=
  ["remember".data, "my".data, "i am".data, "i have".data, "i like".data,
   "my name is".data]

def retrieve_memory_keywords : List (List Char) :=
  ["what did i tell you".data, "do you remember".data,
   "what do you know about".data, "tell me about".data]

def calendar_add_keywords : List (List Char) :=
  ["add meeting".data, "schedule".data, "appointment".data, "calendar".data,
   "add event".data, "meeting".data]

/-- `'what\'s my schedule'` from the source, with the apostrophe built
explicitly. -/
def whats_my_schedule : List Char :=
  "what".data ++ [apos] ++ "s my schedule".data

def calendar_query_keywords : List (List Char) :=
  ["today".data, "schedule today".data, "events today".data,
   whats_my_schedule]

def calculate_keywords : List (List Char) :=
  ["calculate".data, "what is".data, "math".data]

/-- `re.search(r'[\+\-\*\/\=]', user_message)`: the message contains one of
the five operator characters (note: `%` is not among them). -/
def hasOpChar (msg : List Char) : Bool :=
  msg.any (fun c => c = '+' || c = '-' || c = '*' || c = '/' || c = '=')

def homework_keywords : List (List Char) :=
  ["homework".data, "assignment".data, "due".data]

def add_keywords : List (List Char) :=
  ["add".data, "new".data, "have".data]

def budget_keywords : List (List Char) :=
  ["budget".data, "expense".data, "spent".data, "money".data, "cost".data,
   "paid".data]

def spend_keywords : List (List Char) :=
  ["spent".data, "paid".data, "bought".data, "cost".data]

def set_budget_keywords : List (List Char) :=
  ["set budget".data, "monthly budget".data]

def timetable_keywords : List (List Char) :=
  ["classes".data, "timetable".data, "class schedule".data]

/-- `parse_gemini_intent` (gemini_service.py, lines 90–183), restricted to
the `(action, confidence)` fields of the returned dict.  The branch chain
is the source's `if`/`elif` chain, in source order. -/
def parse_gemini_intent (user_message : List Char) : IntentData :=
  let m := toLowerL user_message
  if containsAny m store_memory_keywords then
    ⟨"store_memory".data, ⟨9, 10⟩⟩
  else if containsAny m retrieve_memory_keywords then
    ⟨"retrieve_memory".data, ⟨4, 5⟩⟩
  else if containsAny m calendar_add_keywords then
    ⟨"add_calendar_event".data, ⟨4, 5⟩⟩
  else if containsAny m calendar_query_keywords then
    ⟨"get_calendar_events".data, ⟨9, 10⟩⟩
  else if containsAny m calculate_keywords || hasOpChar user_message then
    ⟨"calculate".data, ⟨9, 10⟩⟩
  else if containsAny m homework_keywords then
    if containsAny m add_keywords then ⟨"add_homework".data, ⟨4, 5⟩⟩
    else ⟨"get_homework".data, ⟨4, 5⟩⟩
  else if containsAny m budget_keywords then
    if containsAny m spend_keywords then ⟨"add_expense".data, ⟨4, 5⟩⟩
    else if containsAny m set_budget_keywords then ⟨"set_budget".data, ⟨4, 5⟩⟩
    else ⟨"get_budget".data, ⟨4, 5⟩⟩
  else if containsAny m timetable_keywords then
    ⟨"get_timetable".data, ⟨4, 5⟩⟩
  else
    ⟨"general".data, ⟨1, 2⟩⟩

/-- Spec-side definition (follows the spec's words, for comparison with the
source): the regex `\d+\s*[+\-*/%]\s*\d+` has a match in the message.
A match exists iff some digit is followed, across optional whitespace, by
one of the five operators and then, across optional whitespace, by a digit
(the last digit of the `\d+` run serves as the witness digit). -/
def spec_numeric_op (c : Char) : Bool :=
  c = '+' || c = '-' || c = '*' || c = '/' || c = '%'

def spec_numeric_pattern_at : List Char → Bool
  | c :: rest =>
    c.isDigit &&
      (match rest.dropWhile isPySpace with
       | o :: r2 =>
         spec_numeric_op o &&
           (match r2.dropWhile isPySpace with
            | d :: _ => d.isDigit
            | [] => false)
       | [] => false)
  | [] => false

def spec_numeric_pattern : List Char → Bool
  | [] => false
  | c :: t => spec_numeric_pattern_at (c :: t) || spec_numeric_pattern t

/-! ## Restricted Python `eval` (utils/calculations.py, `safe_calculate`)

`safe_calculate` first strips every character outside
`[0-9+\-*/().\s]` and then hands the cleaned string to `eval`.  Over that
character set a Python expression can only be built from int/float
literals, `+ - * / // **`, unary signs, parentheses, and the empty tuple
`()`; the embedding implements exactly that fragment.  Python floats are
modelled by exact rationals (no rounding or overflow), which is faithful
on every value the claims touch; a power with a non-integral exponent
(irrational in general) is modelled as the distinguished outcome
`nonIntPow`, which `safe_calculate` maps to the same generic-error branch
as other evaluation failures. -/

/-- Runtime values of the restricted fragment: Python ints, floats
(as exact rationals) and the empty tuple `()`. -/
inductive PyVal where
  | vint : ℤ → PyVal
  | vfloat : Frac → PyVal
  | vtup : PyVal
deriving DecidableEq, Repr

inductive EvalErr where
  | synErr    -- SyntaxError while lexing/parsing
  | typeErr   -- TypeError (operation on the tuple, calls, ...)
  | zeroDiv   -- ZeroDivisionError
  | nonIntPow -- model boundary: power with non-integral exponent
deriving DecidableEq, Repr

inductive Tok where
  | num : PyVal → Tok
  | plus | minus | star | slash | dslash | dstar | lparen | rparen
deriving DecidableEq, Repr

def digitsToNat (ds : List Char) : ℕ :=
  ds.foldl (fun a c => 10 * a + (c.toNat - '0'.toNat)) 0

/-- Lex one numeric literal (`\d+`, `\d+\.\d*`, `\.\d+`, `\d+\.`).
Python rejects integer literals with leading zeros (`012`), while float
literals may carry them (`00.5`). -/
def lexNum (l : List Char) : Except EvalErr (Tok × List Char) :=
  let ds := l.takeWhile Char.isDigit
  let rest := l.dropWhile Char.isDigit
  match rest with
  | '.' :: r2 =>
    let fs := r2.takeWhile Char.isDigit
    let r3 := r2.dropWhile Char.isDigit
    if ds.isEmpty && fs.isEmpty then .error .synErr
    else
      .ok (.num (.vfloat (mkFrac
        ((digitsToNat ds * 10 ^ fs.length + digitsToNat fs : ℕ) : ℤ)
        ((10 ^ fs.length : ℕ) : ℤ))), r3)
  | _ =>
    if ds.isEmpty then .error .synErr
    else if ds.length > 1 && ds.headI = '0' then .error .synErr
    else .ok (.num (.vint (digitsToNat ds : ℤ)), rest)

def tokenize : ℕ → List Char → Except EvalErr (List Tok)
  | 0, _ => .error .synErr
  | _ + 1, [] => .ok []
  | fuel + 1, c :: t =>
    if isPySpace c then tokenize fuel t
    else if c.isDigit || c = '.' then do
      let (tok, rest) ← lexNum (c :: t)
      let ts ← tokenize fuel rest
      return tok :: ts
    else do
      let (tok, rest) :=
        match c, t with
        | '*', '*' :: t' => (Tok.dstar, t')
        | '/', '/' :: t' => (Tok.dslash, t')
        | '*', _ => (Tok.star, t)
        | '/', _ => (Tok.slash, t)
        | '+', _ => (Tok.plus, t)
        | '-', _ => (Tok.minus, t)
        | '(', _ => (Tok.lparen, t)
        | ')', _ => (Tok.rparen, t)
        | _, _ => (Tok.plus, t)   -- unreachable on whitelisted input
      if c = '*' || c = '/' || c = '+' || c = '-' || c = '(' || c = ')' then do
        let ts ← tokenize fuel rest
        return tok :: ts
      else .error .synErr

/-- Abstract syntax of the restricted expression grammar
(`expression` as far as it is reachable from the whitelisted characters). -/
inductive PyExpr where
  | lit : PyVal → PyExpr
  | etup : PyExpr
  | pos : PyExpr → PyExpr
  | neg : PyExpr → PyExpr
  | add : PyExpr → PyExpr → PyExpr
  | sub : PyExpr → PyExpr → PyExpr
  | mul : PyExpr → PyExpr → PyExpr
  | div : PyExpr → PyExpr → PyExpr
  | fdiv : PyExpr → PyExpr → PyExpr
  | pow : PyExpr → PyExpr → PyExpr
deriving DecidableEq, Repr

/-! Recursive-descent parser mirroring Python's expression grammar:
`a_expr` (addition level), `m_expr` (multiplication level), `u_expr`
(unary signs), `power` (`**`, right operand a `u_expr`), atoms.
Fuel-indexed; the top-level entry supplies ample fuel, and running out is
a parse failure. -/

mutual

def parseExpr : ℕ → List Tok → Except EvalErr (PyExpr × List Tok)
  | 0, _ => .error .synErr
  | f + 1, ts => do
    let (a, ts) ← parseTerm f ts
    parseExprRest f a ts

def parseExprRest : ℕ → PyExpr → List Tok → Except EvalErr (PyExpr × List Tok)
  | 0, _, _ => .error .synErr
  | f + 1, a, .plus :: ts => do
    let (b, ts) ← parseTerm f ts
    parseExprRest f (.add a b) ts
  | f + 1, a, .minus :: ts => do
    let (b, ts) ← parseTerm f ts
    parseExprRest f (.sub a b) ts
  | _ + 1, a, ts => .ok (a, ts)

def parseTerm : ℕ → List Tok → Except EvalErr (PyExpr × List Tok)
  | 0, _ => .error .synErr
  | f + 1, ts => do
    let (a, ts) ← parseUnary f ts
    parseTermRest f a ts

def parseTermRest : ℕ → PyExpr → List Tok → Except EvalErr (PyExpr × List Tok)
  | 0, _, _ => .error .synErr
  | f + 1, a, .star :: ts => do
    let (b, ts) ← parseUnary f ts
    parseTermRest f (.mul a b) ts
  | f + 1, a, .slash :: ts => do
    let (b, ts) ← parseUnary f ts
    parseTermRest f (.div a b) ts
  | f + 1, a, .dslash :: ts => do
    let (b, ts) ← parseUnary f ts
    parseTermRest f (.fdiv a b) ts
  | _ + 1, a, ts => .ok (a, ts)

def parseUnary : ℕ → List Tok → Except EvalErr (PyExpr × List Tok)
  | 0, _ => .error .synErr
  | f + 1, .plus :: ts => do
    let (a, ts) ← parseUnary f ts
    return (.pos a, ts)
  | f + 1, .minus :: ts => do
    let (a, ts) ← parseUnary f ts
    return (.neg a, ts)
  | f + 1, ts => parsePower f ts

def parsePower : ℕ → List Tok → Except EvalErr (PyExpr × List Tok)
  | 0, _ => .error .synErr
  | f + 1, ts => do
    let (a, ts) ← parseAtom f ts
    match ts with
    | .dstar :: ts' => do
      let (b, ts'') ← parseUnary f ts'
      return (.pow a b, ts'')
    | _ => return (a, ts)

def parseAtom : ℕ → List Tok → Except EvalErr (PyExpr × List Tok)
  | 0, _ => .error .synErr
  | _ + 1, .num v :: ts => .ok (.lit v, ts)
  | _ + 1, .lparen :: .rparen :: ts => .ok (.etup, ts)
  | f + 1, .lparen :: ts => do
    let (a, ts) ← parseExpr f ts
    match ts with
    | .rparen :: ts' => .ok (a, ts')
    | _ => .error .synErr
  | _ + 1, _ => .error .synErr

end

def asQ : PyVal → Option Frac
  | .vint n => some (Frac.ofInt n)
  | .vfloat q => some q
  | .vtup => none

def pyAdd : PyVal → PyVal → Except EvalErr PyVal
  | .vint a, .vint b => .ok (.vint (a + b))
  | .vtup, .vtup => .ok .vtup
  | a, b =>
    match asQ a, asQ b with
    | some qa, some qb => .ok (.vfloat (qa.add qb))
    | _, _ => .error .typeErr

def pySub : PyVal → PyVal → Except EvalErr PyVal
  | .vint a, .vint b => .ok (.vint (a - b))
  | a, b =>
    match asQ a, asQ b with
    | some qa, some qb => .ok (.vfloat (qa.sub qb))
    | _, _ => .error .typeErr

def pyMul : PyVal → PyVal → Except EvalErr PyVal
  | .vint a, .vint b => .ok (.vint (a * b))
  | .vtup, .vint _ => .ok .vtup     -- () * n = ()
  | .vint _, .vtup => .ok .vtup
  | a, b =>
    match asQ a, asQ b with
    | some qa, some qb => .ok (.vfloat (qa.mul qb))
    | _, _ => .error .typeErr

def pyDiv : PyVal → PyVal → Except EvalErr PyVal
  | a, b =>
    match asQ a, asQ b with
    | some qa, some qb =>
      if qb.isZero then .error .zeroDiv else .ok (.vfloat (qa.div qb))
    | _, _ => .error .typeErr

def pyFloorDiv : PyVal → PyVal → Except EvalErr PyVal
  | .vint a, .vint b =>
    if b = 0 then .error .zeroDiv else .ok (.vint (Int.fdiv a b))
  | a, b =>
    match asQ a, asQ b with
    | some qa, some qb =>
      if qb.isZero then .error .zeroDiv
      else .ok (.vfloat (Frac.ofInt (qa.div qb).floor))
    | _, _ => .error .typeErr

def pyPow : PyVal → PyVal → Except EvalErr PyVal
  | .vint a, .vint b =>
    if 0 ≤ b then .ok (.vint (a ^ b.toNat))
    else if a = 0 then .error .zeroDiv
    else .ok (.vfloat (mkFrac 1 (a ^ (-b).toNat)))
  | a, b =>
    match asQ a, asQ b with
    | some qa, some qb =>
      if qb.den = 1 then
        if 0 ≤ qb.num then .ok (.vfloat (qa.powNat qb.num.toNat))
        else if qa.isZero then .error .zeroDiv
        else .ok (.vfloat ((Frac.ofInt 1).div (qa.powNat (-qb.num).toNat)))
      else .error .nonIntPow
    | _, _ => .error .typeErr

def pyNeg : PyVal → Except EvalErr PyVal
  | .vint a => .ok (.vint (-a))
  | .vfloat a => .ok (.vfloat a.neg)
  | .vtup => .error .typeErr

def pyPos : PyVal → Except EvalErr PyVal
  | .vint a => .ok (.vint a)
  | .vfloat a => .ok (.vfloat a)
  | .vtup => .error .typeErr

def evalE : PyExpr → Except EvalErr PyVal
  | .lit v => .ok v
  | .etup => .ok .vtup
  | .pos a => do pyPos (← evalE a)
  | .neg a => do pyNeg (← evalE a)
  | .add a b => do pyAdd (← evalE a) (← evalE b)
  | .sub a b => do pySub (← evalE a) (← evalE b)
  | .mul a b => do pyMul (← evalE a) (← evalE b)
  | .div a b => do pyDiv (← evalE a) (← evalE b)
  | .fdiv a b => do pyFloorDiv (← evalE a) (← evalE b)
  | .pow a b => do pyPow (← evalE a) (← evalE b)

/-- `eval(clean_expr)` on the whitelisted fragment: the whole string is
compiled first (so a trailing syntax error wins over a runtime error),
then evaluated. -/
def pyEvalStr (l : List Char) : Except EvalErr PyVal := do
  let toks ← tokenize (l.length + 1) l
  let (e, rest) ← parseExpr (8 * (toks.length + 1)) toks
  if rest.isEmpty then evalE e else .error .synErr

/-! ## `safe_calculate` (utils/calculations.py, lines 7–46) -/

/-- The character whitelist of `re.sub(r'[^0-9+\-*/().\s]', '', ...)`. -/
def isWhitelist (c : Char) : Bool :=
  c.isDigit || c = '+' || c = '-' || c = '*' || c = '/' || c = '(' ||
    c = ')' || c = '.' || isPySpace c

/-- `clean_expr = re.sub(r'[^0-9+\-*/().\s]', '', expression)`. -/
def cleanExpr (expression : List Char) : List Char :=
  expression.filter isWhitelist

def dangerous_patterns : List (List Char) :=
  ["__".data, "import".data, "exec".data, "eval".data, "open".data,
   "file".data]

/-- Failure modes of `safe_calculate`; the comments carry the message
strings the source returns. -/
inductive CalcErr where
  | tooComplex  -- "Expression too complex"
  | emptyExpr   -- "No valid mathematical expression found"
  | invalidExpr -- "Invalid expression" (dangerous pattern)
  | notANumber  -- "Result is not a number"
  | divByZero   -- "Division by zero is not allowed"
  | calcError   -- "Calculation error: {e}" (any other exception)
deriving DecidableEq, Repr

inductive CalcOut where
  | ok : Frac → CalcOut
  | err : CalcErr → CalcOut
deriving DecidableEq, Repr

def CalcOut.isErr : CalcOut → Bool
  | .ok _ => false
  | .err _ => true

/-- `safe_calculate` (calculations.py lines 7–46): strip non-whitelisted
characters, guard on the cleaned length, reject blank results, reject
dangerous substrings of the lower-cased original, then evaluate and
convert a numeric result with `float`. -/
def safe_calculate (expression : List Char) : CalcOut :=
  let clean := cleanExpr expression
  if clean.length > 100 then .err .tooComplex
  else if (stripWs clean).isEmpty then .err .emptyExpr
  else if containsAny (toLowerL expression) dangerous_patterns then
    .err .invalidExpr
  else
    match pyEvalStr clean with
    | .ok (.vint n) => .ok (Frac.ofInt n)
    | .ok (.vfloat q) => .ok q
    | .ok .vtup => .err .notANumber
    | .error .zeroDiv => .err .divByZero
    | .error _ => .err .calcError

/-! ## `parse_math_expression` (utils/calculations.py, lines 465–501)

Word-operator substitution with `\b` boundaries on both sides, applied in
the source's dictionary order, followed by removal of filler words,
whitespace squeezing and stripping.  `re.sub` scans the original string
left to right; the boundary context after a replacement is the last
character of the matched text, which the recursion threads through. -/

/-- Python regex word character (`\w` over ASCII): letters, digits, `_`. -/
def isWordChar (c : Char) : Bool := c.isAlphanum || c = '_'

def boundaryBefore : Option Char → Bool
  | none => true
  | some p => !isWordChar p

def boundaryAfter : List Char → Bool
  | [] => true
  | d :: _ => !isWordChar d

/-- `re.sub(r'\b<pat>\b', rep, l)` for a pattern made of word characters
and internal spaces; fuel-indexed (the caller supplies `l.length + 1`,
which is ample as every step consumes at least one character). -/
def subWordAll : ℕ → List Char → List Char → Option Char → List Char →
    List Char
  | 0, _, _, _, l => l
  | _ + 1, _, _, _, [] => []
  | f + 1, pat, rep, prev, c :: t =>
    if pat.isPrefixOf (c :: t) && boundaryBefore prev &&
        boundaryAfter ((c :: t).drop pat.length) then
      rep ++ subWordAll f pat rep (some pat.reverse.headI)
        ((c :: t).drop pat.length)
    else
      c :: subWordAll f pat rep (some c) t

/-- The `replacements` dict of `parse_math_expression`, in source order. -/
def math_replacements : List (List Char × List Char) :=
  [("plus".data, "+".data),
   ("minus".data, "-".data),
   ("times".data, "*".data),
   ("multiplied by".data, "*".data),
   ("divided by".data, "/".data),
   ("over".data, "/".data),
   ("percent of".data, "* 0.01 *".data),
   ("squared".data, "**2".data),
   ("cubed".data, "**3".data),
   ("to the power of".data, "**".data)]

def words_to_remove : List (List Char) :=
  ["what".data, "is".data, "the".data, "result".data, "of".data,
   "equals".data, "equal".data]

/-- `re.sub(r'\s+', ' ', result)`: collapse whitespace runs to one
space (the flag records that the run's space was already emitted). -/
def squeezeWsAux : Bool → List Char → List Char
  | _, [] => []
  | inWs, c :: t =>
    if isPySpace c then
      if inWs then squeezeWsAux true t else ' ' :: squeezeWsAux true t
    else c :: squeezeWsAux false t

def squeezeWs (l : List Char) : List Char := squeezeWsAux false l

/-- `parse_math_expression` (calculations.py lines 465–501). -/
def parse_math_expression (text : List Char) : List Char :=
  let r0 := toLowerL text
  let r1 := math_replacements.foldl
    (fun acc pr => subWordAll (acc.length + 1) pr.1 pr.2 none acc) r0
  let r2 := words_to_remove.foldl
    (fun acc w => subWordAll (acc.length + 1) w [] none acc) r1
  stripWs (squeezeWs r2)

/-! ## Expense amount extraction

`extract_expense_details` (gemini_service.py lines 258–287) and
`extract_expense_entities` (nlu_parser.py lines 202–260) both walk an
ordered list of numeric regexes over the raw message and keep the first
match; the embedding models the amount-extraction section of each.  The
numeric group is `\d+(?:\.\d{2})?`; for every pattern in these lists a
shorter digit run can never extend to a match where the maximal run
fails at the same start position, so maximal-munch matching at each
successive start position implements `re.search` exactly. -/

/-- Parse the group `\d+(?:\.\d{2})?` at the head of the list, returning
its `float` value and the remainder. -/
def numFracAt (l : List Char) : Option (Frac × List Char) :=
  let ds := l.takeWhile Char.isDigit
  let rest := l.dropWhile Char.isDigit
  if ds.isEmpty then none
  else
    match rest with
    | '.' :: a :: b :: r =>
      if a.isDigit && b.isDigit then
        some (mkFrac ((digitsToNat ds * 100 +
          digitsToNat [a, b] : ℕ) : ℤ) 100, r)
      else some (Frac.ofInt (digitsToNat ds : ℤ), rest)
    | _ => some (Frac.ofInt (digitsToNat ds : ℤ), rest)

/-- `re.search`: try the position matcher at each start position, left to
right. -/
def scanSearch {α : Type} (f : List Char → Option α) : List Char → Option α
  | [] => f []
  | c :: t =>
    match f (c :: t) with
    | some r => some r
    | none => scanSearch f t

/-- Position matcher for `\$(\d+(?:\.\d{2})?)`. -/
def dollarAt : List Char → Option Frac
  | '$' :: r => (numFracAt r).map (·.1)
  | _ => none

/-- Position matcher for `(\d+(?:\.\d{2})?)\s*<word>` (the `dollars?` and
`bucks?` patterns; the optional trailing `s` does not affect the
group). -/
def numThenWordAt (word : List Char) (l : List Char) : Option Frac :=
  match numFracAt l with
  | some (v, rest) =>
    if word.isPrefixOf (rest.dropWhile isPySpace) then some v else none
  | none => none

/-- Position matcher for `<word>\s+(\d+(?:\.\d{2})?)` (the `spent`,
`cost`, `paid` patterns of the NLU extractor). -/
def wordThenNumAt (word : List Char) (l : List Char) : Option Frac :=
  if word.isPrefixOf l then
    let r := l.drop word.length
    match r with
    | c :: _ =>
      if isPySpace c then ((r.dropWhile isPySpace) |> numFracAt).map (·.1)
      else none
    | [] => none
  else none

/-- Position matcher for the bare pattern `(\d+(?:\.\d{2})?)`. -/
def bareNumAt (l : List Char) : Option Frac := (numFracAt l).map (·.1)

/-- The amount section of `extract_expense_details`
(gemini_service.py lines 262–274): `$N`, `N dollars`, `N bucks`, bare
`N`; first pattern with a match wins. -/
def extract_expense_details_amount (message : List Char) : Option Frac :=
  match scanSearch dollarAt message with
  | some v => some v
  | none =>
    match scanSearch (numThenWordAt "dollar".data) message with
    | some v => some v
    | none =>
      match scanSearch (numThenWordAt "buck".data) message with
      | some v => some v
      | none => scanSearch bareNumAt message

/-- The amount section of `extract_expense_entities`
(nlu_parser.py lines 206–220): `$N`, `N dollars`, `N bucks`, `spent N`,
`cost N`, `paid N`; first pattern with a match wins. -/
def extract_expense_entities_amount (message : List Char) : Option Frac :=
  match scanSearch dollarAt message with
  | some v => some v
  | none =>
    match scanSearch (numThenWordAt "dollar".data) message with
    | some v => some v
    | none =>
      match scanSearch (numThenWordAt "buck".data) message with
      | some v => some v
      | none =>
        match scanSearch (wordThenNumAt "spent".data) message with
        | some v => some v
        | none =>
          match scanSearch (wordThenNumAt "cost".data) message with
          | some v => some v
          | none => scanSearch (wordThenNumAt "paid".data) message

/-! ## `validate_entities` (utils/nlu_parser.py, lines 444–485) -/

/-- Entity values: strings or numbers (Python floats). -/
inductive EV where
  | s : List Char → EV
  | q : Frac → EV
deriving DecidableEq, Repr

/-- An entity bag: the Python dict as an association list. -/
abbrev EntityBag : Type := List (List Char × EV)

def hasKey (entities : EntityBag) (k : List Char) : Bool :=
  entities.any (fun p => p.1 == k)

structure ValidationResult where
  is_valid : Bool
  missing_fields : List (List Char)
  corrected_entities : EntityBag
deriving DecidableEq

/-- `validate_entities` (nlu_parser.py lines 444–485): per-type required
fields are collected into `missing_fields`, optional fields receive
defaults in a copy of the bag, and `is_valid` is the emptiness of the
missing list. -/
def validate_entities (entities : EntityBag) (entity_type : List Char) :
    ValidationResult :=
  let mc : List (List Char) × EntityBag :=
    if entity_type == "event".data then
      ((if !hasKey entities "custom_title".data &&
          !hasKey entities "event_type".data then ["title".data] else []) ++
       (if !hasKey entities "time".data then ["time".data] else []),
       if !hasKey entities "date".data then
         entities ++ [("date".data, EV.s "today".data)]
       else entities)
    else if entity_type == "homework".data then
      ((if !hasKey entities "subject".data then ["subject".data] else []) ++
       (if !hasKey entities "description".data &&
          !hasKey entities "assignment_type".data then
          ["description".data] else []),
       if !hasKey entities "due_date".data then
         entities ++ [("due_date".data, EV.s "next week".data)]
       else entities)
    else if entity_type == "expense".data then
      ((if !hasKey entities "amount".data then ["amount".data] else []),
       if !hasKey entities "category".data then
         entities ++ [("category".data, EV.s "general".data)]
       else entities)
    else ([], entities)
  ⟨mc.1.isEmpty, mc.1, mc.2⟩

/-! ## Memory retrieval (main.py `retrieve_memories` and the `chat`
endpoint's retrieval branch)

The storage collaborator is external; the embedding takes the
recency-ordered list of stored memory texts as input.  `retrieve_memories`
fetches the 20 most recent records and keeps those whose text contains the
whole query string, case-insensitively (`query.lower() in text.lower()`).
The `chat` endpoint (main.py lines 285–288) passes the full user message
as the query and, when the result is non-empty, appends every match
joined by `"; "`. -/

def retrieve_memories (texts : List (List Char)) (query : List Char) :
    List (List Char) :=
  (texts.take 20).filter (fun t => pyIn (toLowerL query) (toLowerL t))

/-- The response fragment the `chat` endpoint appends for
`retrieve_memory`; `none` when no memory matched. -/
def memory_fragment (texts : List (List Char)) (query : List Char) :
    Option (List Char) :=
  let ms := retrieve_memories texts query
  if ms.isEmpty then none
  else some ("\n\nHere".data ++ [apos] ++ "s what I remember: ".data ++
    joinSep "; ".data ms)

/-- Spec-side definition (follows the spec's words, for comparison with
the source): OR over the whitespace-split query tokens, each matched
case-insensitively as a substring of the memory text. -/
def spec_token_or_match (query text : List Char) : Bool :=
  (splitWs query).any (fun tok => pyIn (toLowerL tok) (toLowerL text))

/-! ## `parse_natural_time` (utils/nlu_parser.py, lines 392–441)

The function lowers and strips the input, looks it up in a named-times
table, then tries `(\d{1,2}):(\d{2})\s*(am|pm)?` and
`(\d{1,2})\s*(am|pm)`.  The minute is computed as
`int(match.group(2)) if len(match.groups()) > 1 and match.group(2) else 0`;
for the second pattern group 2 is the am/pm token, so `int('am')`/
`int('pm')` raises `ValueError`, modelled by the `raised` outcome. -/

inductive TimeOut where
  | raised : TimeOut
  | result : Option (ℤ × ℤ) → TimeOut
deriving DecidableEq, Repr

def named_times : List (List Char × (ℤ × ℤ)) :=
  [("morning".data, (9, 0)), ("afternoon".data, (14, 0)),
   ("evening".data, (18, 0)), ("night".data, (20, 0)),
   ("noon".data, (12, 0)), ("midnight".data, (0, 0))]

def lookupNamed (ts : List Char) : Option (ℤ × ℤ) :=
  named_times.findSome? (fun p => if p.1 == ts then some p.2 else none)

/-- Python's `int(str)`: optional sign, decimal digits, surrounding
whitespace allowed; anything else raises `ValueError` (`none`). -/
def pyIntParse (l : List Char) : Option ℤ :=
  let t := stripWs l
  match t with
  | '+' :: ds =>
    if !ds.isEmpty && ds.all Char.isDigit then
      some ((digitsToNat ds : ℕ) : ℤ) else none
  | '-' :: ds =>
    if !ds.isEmpty && ds.all Char.isDigit then
      some (-((digitsToNat ds : ℕ) : ℤ)) else none
  | ds =>
    if !ds.isEmpty && ds.all Char.isDigit then
      some ((digitsToNat ds : ℕ) : ℤ) else none

/-- The optional trailing `\s*(am|pm)?` of the first time pattern. -/
def ampmOpt (r : List Char) : Option (List Char) :=
  let r' := r.dropWhile isPySpace
  if "am".data.isPrefixOf r' then some "am".data
  else if "pm".data.isPrefixOf r' then some "pm".data
  else none

/-- `(\d{1,2}):(\d{2})\s*(am|pm)?` at one position, two-digit hour
(the greedy choice) first, then the one-digit backtrack. -/
def match1two : List Char → Option (List Char × List Char × Option (List Char))
  | a :: b :: ':' :: m1 :: m2 :: r =>
    if a.isDigit && b.isDigit && m1.isDigit && m2.isDigit then
      some ([a, b], [m1, m2], ampmOpt r)
    else none
  | _ => none

def match1one : List Char → Option (List Char × List Char × Option (List Char))
  | a :: ':' :: m1 :: m2 :: r =>
    if a.isDigit && m1.isDigit && m2.isDigit then
      some ([a], [m1, m2], ampmOpt r)
    else none
  | _ => none

def search_time1 : List Char → Option (List Char × List Char × Option (List Char))
  | [] => none
  | c :: t =>
    match match1two (c :: t) <|> match1one (c :: t) with
    | some r => some r
    | none => search_time1 t

/-- `(\d{1,2})\s*(am|pm)` at one position, returning the two groups. -/
def match2two : List Char → Option (List Char × List Char)
  | a :: b :: r =>
    if a.isDigit && b.isDigit then
      ((ampmOpt r).map (fun ap => ([a, b], ap)))
    else none
  | _ => none

def match2one : List Char → Option (List Char × List Char)
  | a :: r =>
    if a.isDigit then ((ampmOpt r).map (fun ap => ([a], ap)))
    else none
  | _ => none

def search_time2 : List Char → Option (List Char × List Char)
  | [] => none
  | c :: t =>
    match match2two (c :: t) <|> match2one (c :: t) with
    | some r => some r
    | none => search_time2 t

/-- `parse_natural_time` (nlu_parser.py lines 392–441). -/
def parse_natural_time (time_string : List Char) : TimeOut :=
  let ts := stripWs (toLowerL time_string)
  match lookupNamed ts with
  | some hm => .result (some hm)
  | none =>
    match search_time1 ts with
    | some (g1, g2, g3) =>
      match pyIntParse g1, (if g2.isEmpty then some 0 else pyIntParse g2) with
      | some hour, some minute =>
        let hour' :=
          match g3 with
          | some ap =>
            if ap == "pm".data && hour ≠ 12 then hour + 12
            else if ap == "am".data && hour = 12 then 0
            else hour
          | none => hour
        .result (some (hour', minute))
      | _, _ => .raised
    | none =>
      match search_time2 ts with
      | some (g1, g2) =>
        match pyIntParse g1, pyIntParse g2 with
        | some hour, some minute => .result (some (hour, minute))
        | _, _ => .raised
      | none => .result none

/-! ## Inputs and spec-side predicates used by the theorems -/

/-- The literal `"__import__('os')"`. -/
def imp_os_input : List Char :=
  "__import__(".data ++ [apos] ++ "os".data ++ [apos] ++ ")".data

/-- A 104-character input whose cleaned form is the 4-character `2+2`. -/
def c4_long_input : List Char := List.replicate 101 'a' ++ "2+2".data

/-- Spec-side definition (follows the spec's words): a numeric value is in
normalized display form when it is integral (integer display) or has at
most two decimal places (the rounded form); as a reduced fraction, the
denominator is 1 or divides 100. -/
def spec_normalized (q : Frac) : Bool := q.den = 1 || 100 % q.den = 0


/-! ## C1 -/

/-- C1 (counterexample): the message `"remember 2+2"` matches the spec's
numeric-operator pattern `\d+\s*[+\-*/%]\s*\d+`, yet `parse_gemini_intent`
classifies it as `store_memory`, not `calculate`; and `"3 % 4"` matches
the numeric pattern with `%`, yet is classified `general` with
confidence 0.5, because the code's operator-character class omits `%`. -/
theorem C1_counterexample :
    spec_numeric_pattern "remember 2+2".data = true ∧
    (parse_gemini_intent "remember 2+2".data).action = "store_memory".data ∧
    (parse_gemini_intent "remember 2+2".data).action ≠ "calculate".data ∧
    spec_numeric_pattern "3 % 4".data = true ∧
    parse_gemini_intent "3 % 4".data = ⟨"general".data, ⟨1, 2⟩⟩ :=
  ⟨by decide, by decide, by decide, by decide, by decide⟩

/-- C1 (amended): the calculation branch of `parse_gemini_intent` is
reached only after the memory-store, memory-retrieval, calendar-event and
calendar-query keyword groups; for a message containing none of those
keywords, a calculation keyword or one of the characters `+ - * / =`
yields intent `calculate` with confidence 0.9.  The numeric pattern does
not override earlier keyword groups and `%` is not checked. -/
theorem C1_calculate_after_keyword_groups (msg : List Char)
    (h1 : containsAny (toLowerL msg) store_memory_keywords = false)
    (h2 : containsAny (toLowerL msg) retrieve_memory_keywords = false)
    (h3 : containsAny (toLowerL msg) calendar_add_keywords = false)
    (h4 : containsAny (toLowerL msg) calendar_query_keywords = false)
    (h5 : (containsAny (toLowerL msg) calculate_keywords ||
      hasOpChar msg) = true) :
    parse_gemini_intent msg = ⟨"calculate".data, ⟨9, 10⟩⟩ := by
  simp [parse_gemini_intent, h1, h2, h3, h4, h5]

/-- C1 (witness): `"2+2"` contains no earlier-group keyword and contains
`+`, so it classifies as `calculate` with confidence 0.9. -/
theorem C1_witness :
    parse_gemini_intent "2+2".data = ⟨"calculate".data, ⟨9, 10⟩⟩ :=
  C1_calculate_after_keyword_groups _ (by decide) (by decide) (by decide)
    (by decide) (by decide)


/-! ## C2 -/

/-- C2 (counterexample): `"2+2 apples"` contains characters outside the
whitelist, yet `safe_calculate` strips them and succeeds with 4 instead
of failing with an invalid-characters error. -/
theorem C2_counterexample :
    ("2+2 apples".data.any (fun c => !isWhitelist c)) = true ∧
    safe_calculate "2+2 apples".data = .ok ⟨4, 1⟩ :=
  ⟨by decide, by decide⟩

/-- C2 (amended): non-whitelisted characters are stripped, not rejected;
the evaluation step only ever sees whitelisted characters (so the input
is never executed as code).  An input whose lower-cased text contains a
dangerous substring (`__`, `import`, `exec`, `eval`, `open`, `file`)
always fails: the length and blank-expression guards run first, and when
neither fires the result is the invalid-expression error; in particular
`safe_calculate("__import__('os')")` fails with that error. -/
theorem C2_safety :
    (∀ e, containsAny (toLowerL e) dangerous_patterns = true →
      (safe_calculate e).isErr = true) ∧
    (∀ e, containsAny (toLowerL e) dangerous_patterns = true →
      (cleanExpr e).length ≤ 100 →
      (stripWs (cleanExpr e)).isEmpty = false →
      safe_calculate e = .err .invalidExpr) ∧
    (∀ e c, c ∈ cleanExpr e → isWhitelist c = true) ∧
    safe_calculate imp_os_input = .err .invalidExpr := by
  refine ⟨?_, ?_, ?_, by decide⟩
  · intro e h
    simp only [safe_calculate]
    repeat' split
    all_goals simp_all [CalcOut.isErr]
  · intro e hd hlen hempty
    simp only [safe_calculate]
    rw [if_neg (by omega), if_neg (by simp [hempty]), if_pos hd]
  · intro e c hc
    exact (List.mem_filter.mp hc).2

/-- C2 (witness): `"2+2 import"` carries the dangerous substring
`import`, its cleaned form `2+2 ` is short and non-blank, so
`safe_calculate` fails on it with the invalid-expression error. -/
theorem C2_witness : safe_calculate "2+2 import".data = .err .invalidExpr :=
  C2_safety.2.1 _ (by decide) (by decide) (by decide)


/-! ## C3 -/

/-- C3 (counterexample): `safe_calculate("10/3")` returns the full
quotient 10/3, which is neither integral nor a two-decimal value — no
rounding normalization is applied to successful results. -/
theorem C3_counterexample :
    safe_calculate "10/3".data = .ok ⟨10, 3⟩ ∧
    spec_normalized ⟨10, 3⟩ = false :=
  ⟨by decide, by decide⟩

/-- C3 (amended): successful results are returned as computed, with no
rounding or collapse step: integer arithmetic stays integral (`2+2`
evaluates to the int 4, which `safe_calculate` converts with `float`),
`10/4` yields 2.5 because true division produces a float, and `5/0`
fails with the division-by-zero error. -/
theorem C3_raw_results :
    pyEvalStr (cleanExpr "2+2".data) = .ok (.vint 4) ∧
    safe_calculate "2+2".data = .ok ⟨4, 1⟩ ∧
    safe_calculate "10/4".data = .ok ⟨5, 2⟩ ∧
    safe_calculate "5/0".data = .err .divByZero :=
  ⟨by decide, by decide, by decide, by decide⟩


/-! ## C4 -/

/-- C4 (counterexample): a 104-character input whose cleaned expression is
the 4-character `2+2` passes the length guard and evaluates to 4; the
guard does not reject long raw inputs. -/
theorem C4_counterexample :
    100 < c4_long_input.length ∧
    safe_calculate c4_long_input = .ok ⟨4, 1⟩ :=
  ⟨by decide, by decide⟩

/-- C4 (amended): the length guard applies to the cleaned expression:
whenever the input's cleaned form exceeds 100 characters,
`safe_calculate` rejects it with the expression-too-complex error before
any parsing or evaluation. -/
theorem C4_length_guard (e : List Char)
    (h : 100 < (cleanExpr e).length) :
    safe_calculate e = .err .tooComplex := by
  simp [safe_calculate, h]

/-- C4 (witness): 101 digit characters survive cleaning unchanged and are
rejected as too complex. -/
theorem C4_witness :
    safe_calculate (List.replicate 101 '1') = .err .tooComplex :=
  C4_length_guard _ (by decide)


/-! ## C5 -/

/-- C5: the keyword table is checked in a fixed order with the
memory-store group first, so any message containing a memory-store
keyword classifies as `store_memory` regardless of calendar (or any
other) keywords present. -/
theorem C5_store_memory_first (msg : List Char)
    (h : containsAny (toLowerL msg) store_memory_keywords = true) :
    parse_gemini_intent msg = ⟨"store_memory".data, ⟨9, 10⟩⟩ := by
  simp [parse_gemini_intent, h]

/-- C5 (witness): `"remember to schedule a meeting"` contains the
memory-store keyword `remember`, so it classifies as `store_memory`,
not `add_calendar_event`, even though it also contains the calendar
keywords `schedule` and `meeting`. -/
theorem C5_witness :
    parse_gemini_intent "remember to schedule a meeting".data =
      ⟨"store_memory".data, ⟨9, 10⟩⟩ :=
  C5_store_memory_first _ (by decide)


/-! ## C6 -/

/-- C6: in both expense extractors the dollar-sign pattern is tried
first and its match ends the search: whenever `\$(\d+(?:\.\d{2})?)` has a
match, the extracted amount is that match's value. -/
theorem C6_dollar_pattern_first (msg : List Char) (v : Frac)
    (h : scanSearch dollarAt msg = some v) :
    extract_expense_details_amount msg = some v ∧
    extract_expense_entities_amount msg = some v := by
  constructor
  · simp [extract_expense_details_amount, h]
  · simp [extract_expense_entities_amount, h]

/-- C6 (witness): `"I spent $12.50 on lunch, cost 5"` extracts
amount 12.50 (= 25/2), not 5, in both extractors. -/
theorem C6_witness :
    extract_expense_details_amount
      "I spent $12.50 on lunch, cost 5".data = some ⟨25, 2⟩ ∧
    extract_expense_entities_amount
      "I spent $12.50 on lunch, cost 5".data = some ⟨25, 2⟩ :=
  C6_dollar_pattern_first _ _ (by decide)


/-! ## C7 -/

/-- C7: for every entity bag and type, the validator's `is_valid` flag
equals the emptiness of `missing_fields`; and validating the empty bag
for the expense type yields `valid = false`,
`missing_fields = ["amount"]` and the defaulted category `"general"`. -/
theorem C7_validator_invariant :
    (∀ (entities : EntityBag) (entity_type : List Char),
      (validate_entities entities entity_type).is_valid =
        (validate_entities entities entity_type).missing_fields.isEmpty) ∧
    validate_entities [] "expense".data =
      ⟨false, ["amount".data],
        [("category".data, EV.s "general".data)]⟩ :=
  ⟨fun _ _ => rfl, by decide⟩


/-! ## C8 -/

/-- C8 (counterexample): the retrieval filter matches the whole query as
one substring, not OR over whitespace-split tokens — the stored text
`"i like alpha"` matches the token-OR reading of query `"alpha beta"`
but the code returns nothing; and with four matching memories the code
returns all four, not at most 3. -/
theorem C8_counterexample :
    spec_token_or_match "alpha beta".data "i like alpha".data = true ∧
    retrieve_memories ["i like alpha".data] "alpha beta".data = [] ∧
    (retrieve_memories
      ["a alpha".data, "b alpha".data, "c alpha".data, "d alpha".data]
      "alpha".data).length = 4 :=
  ⟨by decide, by decide, by decide⟩

/-- C8 (amended): `retrieve_memories` keeps exactly those of the 20 most
recent memories whose text contains the entire query string
case-insensitively (no token splitting, no result limit), and the chat
fragment is absent exactly when no memory matched. -/
theorem C8_retrieve_filter (texts : List (List Char)) (query m : List Char) :
    (m ∈ retrieve_memories texts query ↔
      m ∈ texts.take 20 ∧ pyIn (toLowerL query) (toLowerL m) = true) ∧
    (memory_fragment texts query = none ↔
      retrieve_memories texts query = []) := by
  constructor
  · simp [retrieve_memories, List.mem_filter]
  · simp only [memory_fragment]
    split
    · simp_all [List.isEmpty_iff]
    · simp_all [List.isEmpty_iff]


/-! ## C9 -/

/-- C9 (counterexample): on the literal message `"What is 15% of 200?"`
the `%` character survives `parse_math_expression` (which only rewrites
the word `percent of`) and is then stripped by `safe_calculate`, leaving
the two adjacent numbers `15 200`; evaluation fails with a syntax error,
so no fragment containing 30 is produced. -/
theorem C9_counterexample :
    parse_math_expression "What is 15% of 200?".data = "15% 200?".data ∧
    safe_calculate (parse_math_expression "What is 15% of 200?".data) =
      .err .calcError :=
  ⟨by decide, by decide⟩

/-- C9 (amended): with the worded operator — `"What is 15 percent of
200?"` — the substitution produces `15 * 0.01 * 200`, which evaluates to
exactly 30 (so the rendered fragment contains "30"; under floating
point the product is ≈30 and its rendering also contains "30"). -/
theorem C9_percent_word_path :
    safe_calculate
      (parse_math_expression "What is 15 percent of 200?".data) =
      .ok ⟨30, 1⟩ := by decide


/-! ## C10 -/

/-- C10: evaluation of `parse_natural_time` at the claim's own examples
shows the code bug: `"3 pm"` and `"12 am"` raise `ValueError` (the
second time pattern's group 2 is the am/pm token and is fed to `int`)
instead of returning (15, 0) and (0, 0), while `"99:99"` returns
(99, 99), violating the valid-clock-time range; `"3:30 pm"` shows the
am/pm conversion working through the first (colon) pattern only. -/
theorem C10_parse_natural_time_eval :
    parse_natural_time "3 pm".data = .raised ∧
    parse_natural_time "12 am".data = .raised ∧
    parse_natural_time "99:99".data = .result (some (99, 99)) ∧
    parse_natural_time "3:30 pm".data = .result (some (15, 30)) :=
  ⟨by decide, by decide, by decide, by decide⟩

end Raphael
